import Mathlib

/-!
MAX17048 fuel-gauge driver: shallow embedding and verified properties.

Embedding of `drivers/sensor/max17048/max17048.c` and `max17048.h`.

* C `int` is 32 bits wide.  Signed arithmetic whose result leaves the range of
  `int`, and every integer division by zero, is undefined behaviour in C and is
  modelled as `none`.
* Unsigned 32-bit arithmetic wraps modulo `2^32`.
* The I2C bus is an external collaborator: it is a function giving, for the
  n-th transaction issued since start-up, the return code and the data bytes.
  Every transaction the driver issues is appended to a log together with the
  return code the bus gave, so that theorems can speak about what reached the
  bus.
-/

namespace Max17048

/-! ## C integer arithmetic -/

/-- Smallest value of a C `int`. -/
def INT_MIN : Int := -2147483648

/-- Largest value of a C `int`. -/
def INT_MAX : Int := 2147483647

/-- Result of a signed `int` operation: undefined when it leaves the range of `int`. -/
def int_result (x : Int) : Option Int :=
  if INT_MIN ≤ x ∧ x ≤ INT_MAX then some x else none

/-- Signed `int` multiplication `a * b`. -/
def int_mul (a b : Int) : Option Int := int_result (a * b)

/-- Signed `int` division `a / b` (truncating towards zero). -/
def int_div (a b : Int) : Option Int :=
  if b = 0 then none else int_result (Int.tdiv a b)

/-- Signed `int` remainder `a % b` (sign of the dividend). -/
def int_mod (a b : Int) : Option Int :=
  if b = 0 then none else int_result (Int.tmod a b)

/-- Conversion to `uint8_t`. -/
def to_uint8 (x : Int) : Nat := (x % 256).toNat

/-- Conversion to `uint16_t`. -/
def to_uint16 (x : Int) : Nat := (x % 65536).toNat

/-- Conversion to `int16_t` (two's complement wrap-around). -/
def to_int16 (x : Int) : Int := (x + 32768) % 65536 - 32768

/-- Conversion to `uint32_t`. -/
def to_uint32 (x : Int) : Nat := (x % 4294967296).toNat

/-- Conversion to `int32_t` (two's complement wrap-around). -/
def to_int32 (x : Int) : Int := (x + 2147483648) % 4294967296 - 2147483648

/-- Unsigned 32-bit multiplication. -/
def u32_mul (a b : Nat) : Nat := (a * b) % 4294967296

/-- Unsigned 32-bit division. -/
def u32_div (a b : Nat) : Option Nat := if b = 0 then none else some (a / b)

/-- Unsigned 32-bit remainder. -/
def u32_mod (a b : Nat) : Option Nat := if b = 0 then none else some (a % b)

/-! ## errno values (Zephyr `errno.h`) -/

def EIO : Int := 5
def ENODEV : Int := 19
def EINVAL : Int := 22
def ENOTSUP : Int := 134

/-! ## `max17048.h` -/

/- Register addresses -/
def VCELL : Int := 0x02
def SOC : Int := 0x04
def MODE : Int := 0x06
def VERSION : Int := 0x08
def HIBRT : Int := 0x0a
def CONFIG : Int := 0x0c
def VALRT : Int := 0x14
def CRATE : Int := 0x16
def VRESET_ID : Int := 0x18
def STATUS : Int := 0x1a
def TABLE : Int := 0x40
def CMD : Int := 0xfe

/- Masks -/
def HIBRT_ON : Nat := 0xFFFF
def HIBRT_OFF : Nat := 0x0000
def SLEEP : Nat := 1 <<< 7
def ENSLEEP : Nat := 1 <<< 13

/-- The driver data `struct max17048_data`: three `uint16_t` fields. -/
structure max17048_data where
  /-- Current cell voltage in units of 78.125 uV -/
  voltage : Nat
  /-- Remaining capacity in 1% / 256 -/
  state_of_charge : Nat
  /-- discharge rate in 0.208% / h -/
  c_rate : Nat
  deriving DecidableEq, Repr

/-- Every field of the driver data holds a `uint16_t` value. -/
def max17048_data.wf (d : max17048_data) : Prop :=
  d.voltage ≤ 65535 ∧ d.state_of_charge ≤ 65535 ∧ d.c_rate ≤ 65535

/-- The driver configuration `struct max17048_config`, without the bus handle. -/
structure max17048_config where
  enable_sleep : Bool
  deriving DecidableEq, Repr

/-! ## Types of the host sensor and power-management frameworks -/

/-- The channels of `enum sensor_channel` the driver names; the rest are `other`. -/
inductive sensor_channel where
  | SENSOR_CHAN_GAUGE_VOLTAGE
  | SENSOR_CHAN_GAUGE_STATE_OF_CHARGE
  | SENSOR_CHAN_GAUGE_TIME_TO_EMPTY
  | SENSOR_CHAN_ALL
  | other (n : Nat)
  deriving DecidableEq, Repr

/-- A `struct sensor_value`: integer part `val1`, millionths `val2`, both `int32_t`. -/
structure sensor_value where
  val1 : Int
  val2 : Int
  deriving DecidableEq, Repr

open sensor_channel

/-! ## `max17048_channel_get` -/

/-- The function `max17048_channel_get`: the return code and the caller's
`*valp` after the call; `none` when the evaluation is undefined in C. -/
def max17048_channel_get (priv : max17048_data) (chan : sensor_channel)
    (valp : sensor_value) : Option (Int × sensor_value) :=
  match chan with
  | SENSOR_CHAN_GAUGE_VOLTAGE => do
    -- tmp = priv->voltage * 625 / 8;
    let p ← int_mul (priv.voltage : Int) 625
    let q ← int_div p 8
    let tmp : Nat := to_uint32 q
    -- valp->val1 = tmp / 1000000; valp->val2 = tmp % 1000000;
    let w ← u32_div tmp 1000000
    let f ← u32_mod tmp 1000000
    some (0, { val1 := to_int32 w, val2 := to_int32 f })
  | SENSOR_CHAN_GAUGE_STATE_OF_CHARGE => do
    -- valp->val1 = priv->state_of_charge / 256;
    let w ← int_div (priv.state_of_charge : Int) 256
    -- valp->val2 = priv->state_of_charge % 256 * 1000000 / 256;
    let r ← int_mod (priv.state_of_charge : Int) 256
    let m ← int_mul r 1000000
    let f ← int_div m 256
    some (0, { val1 := to_int32 w, val2 := to_int32 f })
  | SENSOR_CHAN_GAUGE_TIME_TO_EMPTY =>
    -- tmp = priv->c_rate;
    let tmp : Nat := to_uint32 (priv.c_rate : Int)
    if tmp > 0 then do
      -- valp->val1 = (priv->state_of_charge / 256) / (tmp * 26 / 125) * 60;
      let s ← int_div (priv.state_of_charge : Int) 256
      let r ← u32_div (u32_mul tmp 26) 125
      let d ← u32_div (to_uint32 s) r
      let w : Nat := u32_mul d 60
      some (0, { val1 := to_int32 w, val2 := 0 })
    else
      some (0, { val1 := 0, val2 := 0 })
  | _ => some (- ENOTSUP, valp)

/-! ## The I2C bus -/

/-- A transaction handed to the bus. -/
inductive I2cOp where
  /-- The call `i2c_burst_read_dt(spec, start_addr, buf, num_bytes)`. -/
  | burst_read (start_addr : Nat) (num_bytes : Nat)
  /-- The call `i2c_write_dt(spec, buf, num_bytes)` with the bytes of `buf`. -/
  | write (buf : List Nat)
  deriving DecidableEq, Repr

/-- What the bus answers to one transaction: the return code (`0` on success,
a negative errno value on failure) and, for a 2-byte read, the
two data bytes in wire order. -/
structure I2cReply where
  rc : Int
  b0 : Nat
  b1 : Nat
  deriving DecidableEq, Repr

/-- The bus: its answer to the n-th transaction issued on it. -/
abbrev I2cBus := Nat → I2cReply

/-- The bus keeps the contract of the I2C interface: a return code is `0` or negative. -/
def I2cBus.conforming (bus : I2cBus) : Prop := ∀ n, (bus n).rc ≤ 0

/-- A logged transaction: what was issued and the return code of the bus. -/
structure I2cXfer where
  op : I2cOp
  rc : Int
  deriving DecidableEq, Repr

/-- Issue one transaction: the reply of the bus and the extended log. -/
def i2c_transfer (bus : I2cBus) (log : List I2cXfer) (op : I2cOp) :
    I2cReply × List I2cXfer :=
  let r := bus log.length
  (r, log ++ [{ op := op, rc := r.rc }])

/-- The `int` value of `(i2c_data[0] << 8) | i2c_data[1]` for a `uint8_t` buffer. -/
def reg_value (b0 b1 : Nat) : Int :=
  ((((b0 % 256) <<< 8) ||| (b1 % 256) : Nat) : Int)

/-- The function `max17048_reg_read`: `.error rc` when the burst read fails and `*valp`
is left alone, `.ok v` when it returns `0` after storing the `int16_t` value `v`
in `*valp`. -/
def max17048_reg_read (bus : I2cBus) (log : List I2cXfer) (reg_addr : Int) :
    Except Int Int × List I2cXfer :=
  -- rc = i2c_burst_read_dt(&config->i2c, reg_addr, i2c_data, 2);
  let (r, log1) := i2c_transfer bus log (.burst_read (to_uint8 reg_addr) 2)
  if r.rc < 0 then
    (.error r.rc, log1)
  else
    -- *valp = (i2c_data[0] << 8) | i2c_data[1];
    (.ok (to_int16 (reg_value r.b0 r.b1)), log1)

/-- The helper `sys_put_le16(val, dst)`: the two bytes stored at `dst`. -/
def sys_put_le16 (val : Nat) : List Nat := [val % 256, (val / 256) % 256]

/-- The function `max17048_reg_write`: the return code of `i2c_write_dt`. -/
def max17048_reg_write (bus : I2cBus) (log : List I2cXfer) (reg_addr : Int) (val : Nat) :
    Int × List I2cXfer :=
  -- buf[0] = (uint8_t)reg_addr; sys_put_le16(val, &buf[1]);
  let buf : List Nat := to_uint8 reg_addr :: sys_put_le16 (val % 65536)
  let (r, log1) := i2c_transfer bus log (.write buf)
  (r.rc, log1)

/-! ## Device state -/

/-- The states of `enum pm_device_state`. -/
inductive pm_device_state where
  | PM_DEVICE_STATE_ACTIVE
  | PM_DEVICE_STATE_SUSPENDED
  | PM_DEVICE_STATE_SUSPENDING
  | PM_DEVICE_STATE_OFF
  deriving DecidableEq, Repr

/-- The actions of `enum pm_device_action`. -/
inductive pm_device_action where
  | PM_DEVICE_ACTION_SUSPEND
  | PM_DEVICE_ACTION_RESUME
  | PM_DEVICE_ACTION_TURN_OFF
  | PM_DEVICE_ACTION_TURN_ON
  deriving DecidableEq, Repr

open pm_device_state pm_device_action

/-- Build options the source tests. -/
structure Kconfig where
  /-- The option `CONFIG_PM_DEVICE`. -/
  PM_DEVICE : Bool
  /-- The option `CONFIG_ASSERT`: whether `__ASSERT_NO_MSG` is compiled in. -/
  ASSERT : Bool
  deriving DecidableEq, Repr

/-- One device instance: the driver data `dev->data`, the power state kept for
the device by the power-management framework, and the log of bus transactions. -/
structure Device where
  data : max17048_data
  pm_state : pm_device_state
  log : List I2cXfer
  deriving DecidableEq, Repr

/-- The destinations `regs[i].dest` of `max17048_sample_fetch`. -/
inductive Dest where
  | voltage
  | state_of_charge
  | c_rate
  deriving DecidableEq, Repr

/-- The store `*dest = v` of an `int16_t` value through the `int16_t *` that points at a
`uint16_t` field: the field then reads as the same 16 bits, unsigned. -/
def max17048_data.store (d : max17048_data) (dest : Dest) (v : Int) : max17048_data :=
  match dest with
  | .voltage => { d with voltage := to_uint16 v }
  | .state_of_charge => { d with state_of_charge := to_uint16 v }
  | .c_rate => { d with c_rate := to_uint16 v }

/-- The table `regs[]` of `max17048_sample_fetch`. -/
def regs : List (Int × Dest) :=
  [(VCELL, .voltage), (SOC, .state_of_charge), (CRATE, .c_rate)]

/-- The loop of `max17048_sample_fetch` over the remaining entries of `regs`. -/
def sample_fetch_loop (bus : I2cBus) : List (Int × Dest) → Device → Int × Device
  | [], dev => (0, dev)
  | (reg_addr, dest) :: rest, dev =>
    -- rc = max17048_reg_read(dev, regs[i].reg_addr, regs[i].dest);
    match max17048_reg_read bus dev.log reg_addr with
    | (.error rc, log1) => (rc, { dev with log := log1 })
    | (.ok v, log1) =>
      sample_fetch_loop bus rest { dev with data := dev.data.store dest v, log := log1 }

/-- The function `max17048_sample_fetch`: the return code and the device afterwards;
`none` when the assertion on `chan` fails. -/
def max17048_sample_fetch (k : Kconfig) (bus : I2cBus) (chan : sensor_channel)
    (dev : Device) : Option (Int × Device) :=
  -- __ASSERT_NO_MSG(chan == SENSOR_CHAN_ALL);
  if k.ASSERT = true ∧ chan ≠ SENSOR_CHAN_ALL then none
  -- Do not allow sample fetching from off state
  else if k.PM_DEVICE = true ∧ dev.pm_state = PM_DEVICE_STATE_OFF then some (- EIO, dev)
  else some (sample_fetch_loop bus regs dev)

/-! ## Power management -/

/-- The function `max17048_pm_action` (compiled under `CONFIG_PM`). -/
def max17048_pm_action (bus : I2cBus) (action : pm_device_action) (dev : Device) :
    Int × Device :=
  match action with
  | PM_DEVICE_ACTION_RESUME =>
    let (ret, log1) := max17048_reg_write bus dev.log HIBRT HIBRT_OFF
    (ret, { dev with log := log1 })
  | PM_DEVICE_ACTION_SUSPEND =>
    let (ret, log1) := max17048_reg_write bus dev.log HIBRT HIBRT_ON
    (ret, { dev with log := log1 })
  | PM_DEVICE_ACTION_TURN_OFF =>
    -- ret = max17048_reg_read(dev, CONFIG, &tmp);
    match max17048_reg_read bus dev.log CONFIG with
    | (.error ret, log1) => (ret, { dev with log := log1 })
    | (.ok v, log1) =>
      -- tmp |= SLEEP;  (`tmp` is a `uint16_t` written through an `int16_t *`)
      let tmp : Nat := to_uint16 (((to_uint16 v ||| SLEEP : Nat) : Int))
      let (ret, log2) := max17048_reg_write bus log1 CONFIG tmp
      (ret, { dev with log := log2 })
  | _ => (- ENOTSUP, dev)

/-- The state a power action leads to. -/
def action_target_state : pm_device_action → pm_device_state
  | PM_DEVICE_ACTION_SUSPEND => PM_DEVICE_STATE_SUSPENDED
  | PM_DEVICE_ACTION_RESUME => PM_DEVICE_STATE_ACTIVE
  | PM_DEVICE_ACTION_TURN_OFF => PM_DEVICE_STATE_OFF
  | PM_DEVICE_ACTION_TURN_ON => PM_DEVICE_STATE_SUSPENDED

/-- Modelled from the spec: the dispatch of the host power-management framework, which
is not part of this repository.  It runs the driver's action callback and updates
the power state only after the action succeeded in full: the state advances to the
target state of the action exactly when the callback reports success, and is left
unchanged otherwise. -/
def apply_power_action (bus : I2cBus) (action : pm_device_action) (dev : Device) :
    Int × Device :=
  let (ret, dev1) := max17048_pm_action bus action dev
  if ret = 0 then (ret, { dev1 with pm_state := action_target_state action })
  else (ret, dev1)

/-! ## Initialisation -/

/-- The function `max17048_gauge_init`; `bus_ready` is `device_is_ready(config->i2c.bus)`. -/
def max17048_gauge_init (config : max17048_config) (bus_ready : Bool) (bus : I2cBus)
    (dev : Device) : Int × Device :=
  if ¬ bus_ready then (- ENODEV, dev)
  else
    match max17048_reg_read bus dev.log STATUS with
    | (.error _, log1) => (- EIO, { dev with log := log1 })
    | (.ok _, log1) =>
      if config.enable_sleep then
        let (ret, log2) := max17048_reg_write bus log1 MODE ENSLEEP
        (ret, { dev with log := log2 })
      else (0, { dev with log := log1 })


/-! ## Concrete buses and devices used as examples -/

/-- A bus on which every transaction succeeds and every read returns the bytes `AB CD`. -/
def bus_all_ok : I2cBus := fun _ => ⟨0, 0xAB, 0xCD⟩

/-- A bus whose second transaction fails with `-EIO`, all others succeed. -/
def bus_second_fails : I2cBus := fun n => if n = 1 then ⟨-5, 0, 0⟩ else ⟨0, 0xAB, 0xCD⟩

/-- An active device holding the sample `(1, 2, 3)`, before any bus traffic. -/
def dev_active : Device := ⟨⟨1, 2, 3⟩, PM_DEVICE_STATE_ACTIVE, []⟩

/-- A bus whose second transaction fails with `-EBUSY` (`-16`), all others succeed. -/
def bus_second_busy : I2cBus := fun n => if n = 1 then ⟨-16, 0, 0⟩ else ⟨0, 0, 0⟩

/-- A bus on which every transaction succeeds and every read returns the bytes `97 1C`,
the power-on value `0x971C` of the CONFIG register. -/
def bus_config_default : I2cBus := fun _ => ⟨0, 0x97, 0x1C⟩

/-! ## The conversions over unbounded integers -/

/-- The conversion formulas of the specification for the three supported channels,
evaluated over the natural numbers, where nothing overflows or wraps around: the pair
(whole, fractional), or `none` where a formula divides by zero and for any other
channel. -/
def get_value_unbounded (priv : max17048_data) (chan : sensor_channel) :
    Option (Nat × Nat) :=
  match chan with
  | SENSOR_CHAN_GAUGE_VOLTAGE =>
    -- tmp = raw * 625 / 8; whole = tmp / 1_000_000; fractional = tmp % 1_000_000
    let tmp := priv.voltage * 625 / 8
    some (tmp / 1000000, tmp % 1000000)
  | SENSOR_CHAN_GAUGE_STATE_OF_CHARGE =>
    -- whole = raw / 256; fractional = (raw % 256) * 1_000_000 / 256
    some (priv.state_of_charge / 256, priv.state_of_charge % 256 * 1000000 / 256)
  | SENSOR_CHAN_GAUGE_TIME_TO_EMPTY =>
    if priv.c_rate = 0 then some (0, 0)
    else
      -- rate_per_hour = raw * 26 / 125; whole = (soc / 256) / rate_per_hour * 60
      let rate_per_hour := priv.c_rate * 26 / 125
      if rate_per_hour = 0 then none
      else some (priv.state_of_charge / 256 / rate_per_hour * 60, 0)
  | _ => none

/-! ## Arithmetic lemmas -/

theorem int_result_eq (x : Int) (h1 : -2147483648 ≤ x) (h2 : x ≤ 2147483647) :
    int_result x = some x := by
  simp [int_result, INT_MIN, INT_MAX, h1, h2]

theorem int_mul_eq (a b : Int) (h1 : -2147483648 ≤ a * b) (h2 : a * b ≤ 2147483647) :
    int_mul a b = some (a * b) := int_result_eq _ h1 h2

theorem int_div_eq (a b : Int) (ha : 0 ≤ a) (hb : 0 < b) (h : a ≤ 2147483647) :
    int_div a b = some (a / b) := by
  have hb0 : b ≠ 0 := by omega
  have hq : 0 ≤ a / b := Int.ediv_nonneg ha (by omega)
  have hq2 : a / b ≤ a := Int.ediv_le_self b ha
  rw [int_div, if_neg hb0, Int.tdiv_eq_ediv ha (by omega)]
  exact int_result_eq _ (by omega) (by omega)

theorem int_mod_eq (a b : Int) (ha : 0 ≤ a) (hb : 0 < b) (h : b ≤ 2147483647) :
    int_mod a b = some (a % b) := by
  have hb0 : b ≠ 0 := by omega
  have h1 : 0 ≤ a % b := Int.emod_nonneg a hb0
  have h2 : a % b < b := Int.emod_lt_of_pos a hb
  rw [int_mod, if_neg hb0, Int.tmod_eq_emod ha (by omega)]
  exact int_result_eq _ (by omega) (by omega)

theorem to_uint32_eq (a : Nat) (h : a ≤ 4294967295) : to_uint32 (a : Int) = a := by
  unfold to_uint32; omega

theorem to_int32_eq (x : Int) (h1 : -2147483648 ≤ x) (h2 : x ≤ 2147483647) :
    to_int32 x = x := by
  unfold to_int32; omega

/-- The 16 bits assembled from two bus bytes, first byte most significant. -/
theorem reg_value_eq (b0 b1 : Nat) :
    reg_value b0 b1 = ((256 * (b0 % 256) + b1 % 256 : Nat) : Int) := by
  unfold reg_value
  have h : b1 % 256 < 2 ^ 8 := by omega
  rw [Nat.shiftLeft_eq, Nat.mul_comm, ← Nat.mul_add_lt_is_or h]

/-- The `uint16_t` a field holds after a register value went through the `int16_t` store. -/
theorem stored_reg_value (b0 b1 : Nat) :
    to_uint16 (to_int16 (reg_value b0 b1)) = 256 * (b0 % 256) + b1 % 256 := by
  rw [reg_value_eq]
  unfold to_uint16 to_int16
  omega

/-! ## Register transport -/

theorem reg_read_fail (bus : I2cBus) (log : List I2cXfer) (reg_addr : Int)
    (h : (bus log.length).rc < 0) :
    max17048_reg_read bus log reg_addr
      = (.error (bus log.length).rc,
          log ++ [⟨.burst_read (to_uint8 reg_addr) 2, (bus log.length).rc⟩]) := by
  simp [max17048_reg_read, i2c_transfer, h]

theorem reg_read_ok (bus : I2cBus) (log : List I2cXfer) (reg_addr : Int)
    (h : 0 ≤ (bus log.length).rc) :
    max17048_reg_read bus log reg_addr
      = (.ok (to_int16 (reg_value (bus log.length).b0 (bus log.length).b1)),
          log ++ [⟨.burst_read (to_uint8 reg_addr) 2, (bus log.length).rc⟩]) := by
  have h' : ¬ (bus log.length).rc < 0 := by omega
  simp [max17048_reg_read, i2c_transfer, h']

theorem reg_write_eq (bus : I2cBus) (log : List I2cXfer) (reg_addr : Int) (val : Nat) :
    max17048_reg_write bus log reg_addr val
      = ((bus log.length).rc,
          log ++ [⟨.write [to_uint8 reg_addr, val % 65536 % 256, val % 65536 / 256 % 256],
                    (bus log.length).rc⟩]) := by
  simp [max17048_reg_write, i2c_transfer, sys_put_le16]

/-! ## Value conversion -/

/-- C1: the time-to-empty conversion divides by zero. With a stored discharge rate
of 1 (and likewise 4, the largest such rate) the guard `tmp > 0` is passed, the divisor
`tmp * 26 / 125` evaluates to 0, and the division by it is undefined, so
`max17048_channel_get` has no result for this valid channel. -/
theorem channel_get_time_to_empty_zero_divisor :
    u32_div (u32_mul (to_uint32 1) 26) 125 = some 0
    ∧ u32_div (u32_mul (to_uint32 4) 26) 125 = some 0
    ∧ max17048_channel_get ⟨0, 12800, 1⟩ SENSOR_CHAN_GAUGE_TIME_TO_EMPTY ⟨0, 0⟩ = none
    ∧ max17048_channel_get ⟨0, 12800, 4⟩ SENSOR_CHAN_GAUGE_TIME_TO_EMPTY ⟨0, 0⟩ = none := by
  decide

/-- C3: for every raw voltage `v` in [0, 65535], the voltage channel succeeds and reports
whole part `(v*625/8) / 1000000` and fractional part `(v*625/8) % 1000000` (integer
division), so that `whole * 1000000 + fractional = v*625/8`; raw voltage `0x4000` is
reported as `(1, 280000)`. -/
theorem channel_get_voltage (v s c : Nat) (valp : sensor_value) (hv : v ≤ 65535) :
    (∃ out : sensor_value,
      max17048_channel_get ⟨v, s, c⟩ SENSOR_CHAN_GAUGE_VOLTAGE valp = some (0, out)
      ∧ out.val1 = ((v * 625 / 8 / 1000000 : Nat) : Int)
      ∧ out.val2 = ((v * 625 / 8 % 1000000 : Nat) : Int)
      ∧ out.val1 * 1000000 + out.val2 = ((v * 625 / 8 : Nat) : Int))
    ∧ max17048_channel_get ⟨0x4000, s, c⟩ SENSOR_CHAN_GAUGE_VOLTAGE valp
        = some (0, ⟨1, 280000⟩) := by
  have key : ∀ u : Nat, u ≤ 65535 →
      max17048_channel_get ⟨u, s, c⟩ SENSOR_CHAN_GAUGE_VOLTAGE valp
        = some (0, ⟨((u * 625 / 8 / 1000000 : Nat) : Int),
                    ((u * 625 / 8 % 1000000 : Nat) : Int)⟩) := by
    intro u hu
    have h1 : int_mul (u : Int) 625 = some ((u : Int) * 625) :=
      int_mul_eq _ _ (by omega) (by omega)
    have h2 : int_div ((u : Int) * 625) 8 = some ((u : Int) * 625 / 8) :=
      int_div_eq _ _ (by omega) (by omega) (by omega)
    have h3 : to_uint32 ((u : Int) * 625 / 8) = u * 625 / 8 := by
      have : (u : Int) * 625 / 8 = ((u * 625 / 8 : Nat) : Int) := by push_cast; rfl
      rw [this]; exact to_uint32_eq _ (by omega)
    simp [max17048_channel_get, h1, h2, h3, u32_div, u32_mod]
    constructor <;> exact to_int32_eq _ (by omega) (by omega)
  refine ⟨⟨_, key v hv, rfl, rfl, ?_⟩, ?_⟩
  · simp only []; omega
  · rw [key 0x4000 (by decide)]; rfl

/-- Witness for `channel_get_voltage`: raw voltage `0x4000`. -/
theorem channel_get_voltage_witness :
    (0x4000 : Nat) ≤ 65535
    ∧ max17048_channel_get ⟨0x4000, 0, 0⟩ SENSOR_CHAN_GAUGE_VOLTAGE ⟨0, 0⟩
        = some (0, ⟨1, 280000⟩) :=
  ⟨by decide, (channel_get_voltage 0x4000 0 0 ⟨0, 0⟩ (by decide)).2⟩

/-- C4: for every raw state of charge `s` in [0, 65535], the state-of-charge channel
succeeds and reports whole part `s / 256` and fractional part
`(s % 256) * 1000000 / 256` (integer division); raw value `0x3200` is reported as
`(50, 0)`. -/
theorem channel_get_state_of_charge (v s c : Nat) (valp : sensor_value) (hs : s ≤ 65535) :
    max17048_channel_get ⟨v, s, c⟩ SENSOR_CHAN_GAUGE_STATE_OF_CHARGE valp
      = some (0, ⟨((s / 256 : Nat) : Int), ((s % 256 * 1000000 / 256 : Nat) : Int)⟩)
    ∧ max17048_channel_get ⟨v, 0x3200, c⟩ SENSOR_CHAN_GAUGE_STATE_OF_CHARGE valp
        = some (0, ⟨50, 0⟩) := by
  have key : ∀ u : Nat, u ≤ 65535 →
      max17048_channel_get ⟨v, u, c⟩ SENSOR_CHAN_GAUGE_STATE_OF_CHARGE valp
        = some (0, ⟨((u / 256 : Nat) : Int), ((u % 256 * 1000000 / 256 : Nat) : Int)⟩) := by
    intro u hu
    have h1 : int_div (u : Int) 256 = some ((u : Int) / 256) :=
      int_div_eq _ _ (by omega) (by omega) (by omega)
    have h2 : int_mod (u : Int) 256 = some ((u : Int) % 256) :=
      int_mod_eq _ _ (by omega) (by omega) (by omega)
    have h3 : int_mul ((u : Int) % 256) 1000000 = some ((u : Int) % 256 * 1000000) :=
      int_mul_eq _ _ (by omega) (by omega)
    have h4 : int_div ((u : Int) % 256 * 1000000) 256
        = some ((u : Int) % 256 * 1000000 / 256) :=
      int_div_eq _ _ (by omega) (by omega) (by omega)
    simp [max17048_channel_get, h1, h2, h3, h4]
    constructor <;> exact to_int32_eq _ (by omega) (by omega)
  exact ⟨key s hs, by rw [key 0x3200 (by decide)]; rfl⟩

/-- Witness for `channel_get_state_of_charge`: raw state of charge `0x3200`. -/
theorem channel_get_state_of_charge_witness :
    (0x3200 : Nat) ≤ 65535
    ∧ max17048_channel_get ⟨0, 0x3200, 0⟩ SENSOR_CHAN_GAUGE_STATE_OF_CHARGE ⟨0, 0⟩
        = some (0, ⟨50, 0⟩) :=
  ⟨by decide, (channel_get_state_of_charge 0 0x3200 0 ⟨0, 0⟩ (by decide)).2⟩

/-- C8: for every raw discharge rate `c` in [0, 65535] and raw state of charge `s` in
[0, 65535] for which the hourly rate `c * 26 / 125` (integer division) is not zero (so
that `c` is not zero either), the time-to-empty channel succeeds and reports whole part
`((s / 256) / (c * 26 / 125)) * 60`, evaluated left to right with integer division, and
fractional part 0. -/
theorem channel_get_time_to_empty (v s c : Nat) (valp : sensor_value)
    (hs : s ≤ 65535) (hc : c ≤ 65535) (hrate : c * 26 / 125 ≠ 0) :
    max17048_channel_get ⟨v, s, c⟩ SENSOR_CHAN_GAUGE_TIME_TO_EMPTY valp
      = some (0, ⟨((s / 256 / (c * 26 / 125) * 60 : Nat) : Int), 0⟩) := by
  have h0 : to_uint32 (c : Int) = c := to_uint32_eq _ (by omega)
  have h1 : int_div (s : Int) 256 = some (((s / 256 : Nat) : Int)) := by
    rw [int_div_eq _ _ (by omega) (by omega) (by omega)]; push_cast; rfl
  have h2 : u32_mul c 26 = c * 26 := by unfold u32_mul; omega
  have h3 : to_uint32 (((s / 256 : Nat) : Int)) = s / 256 := to_uint32_eq _ (by omega)
  have hq : s / 256 / (c * 26 / 125) ≤ 255 :=
    le_trans (Nat.div_le_self _ _) (by omega)
  have h4 : u32_mul (s / 256 / (c * 26 / 125)) 60 = s / 256 / (c * 26 / 125) * 60 := by
    unfold u32_mul; omega
  have hpos : 0 < c := by omega
  have h5 : to_int32 ((s / 256 / (c * 26 / 125) * 60 : Nat) : Int)
      = ((s / 256 / (c * 26 / 125) * 60 : Nat) : Int) :=
    to_int32_eq _ (by omega) (by omega)
  have h125 : ¬ (125 : Nat) = 0 := by decide
  simp only [max17048_channel_get, h0, gt_iff_lt, hpos, if_true, h1, h2, h3, u32_div,
    if_neg hrate, if_neg h125, h4, h5, Option.bind_eq_bind, Option.some_bind]

/-- Witness for `channel_get_time_to_empty`: 50 % left at a raw discharge rate of 5. -/
theorem channel_get_time_to_empty_witness :
    (0x3200 : Nat) ≤ 65535 ∧ (5 : Nat) ≤ 65535 ∧ 5 * 26 / 125 ≠ 0
    ∧ max17048_channel_get ⟨0, 0x3200, 5⟩ SENSOR_CHAN_GAUGE_TIME_TO_EMPTY ⟨0, 0⟩
      = some (0, ⟨((0x3200 / 256 / (5 * 26 / 125) * 60 : Nat) : Int), 0⟩) :=
  ⟨by decide, by decide, by decide,
    channel_get_time_to_empty 0 0x3200 5 ⟨0, 0⟩ (by decide) (by decide) (by decide)⟩

/-- C9: with a raw discharge rate of 0 the time-to-empty channel succeeds and reports
`(0, 0)`, for every raw state of charge and every raw voltage. -/
theorem channel_get_time_to_empty_zero_rate (v s : Nat) (valp : sensor_value) :
    max17048_channel_get ⟨v, s, 0⟩ SENSOR_CHAN_GAUGE_TIME_TO_EMPTY valp
      = some (0, ⟨0, 0⟩) := by
  simp [max17048_channel_get, to_uint32]


/-! ## Sample fetch -/

/-- C6: with `CONFIG_PM_DEVICE`, a fetch while the power state is off returns `-EIO`
and leaves the device as it was: no transaction is added to the bus log (neither a
read nor a write reaches the bus) and the stored sample is unchanged. -/
theorem sample_fetch_off (a : Bool) (bus : I2cBus) (d : max17048_data)
    (log : List I2cXfer) :
    max17048_sample_fetch ⟨true, a⟩ bus SENSOR_CHAN_ALL ⟨d, PM_DEVICE_STATE_OFF, log⟩
      = some (- EIO, ⟨d, PM_DEVICE_STATE_OFF, log⟩) := by
  simp [max17048_sample_fetch]

/-- C7: when the power state is not off and the three bus reads succeed, a fetch
returns 0, adds to the bus log exactly three reads of two bytes, at `0x02` (VCELL),
`0x04` (SOC) and `0x16` (CRATE) in this order, and no write, and stores as the sample
the three values read, each `256 * b0 + b1` for the bytes `b0`, `b1` of its read. -/
theorem sample_fetch_success (k : Kconfig) (bus : I2cBus) (dev : Device)
    (hpm : dev.pm_state ≠ PM_DEVICE_STATE_OFF)
    (h0 : (bus dev.log.length).rc = 0)
    (h1 : (bus (dev.log.length + 1)).rc = 0)
    (h2 : (bus (dev.log.length + 2)).rc = 0) :
    max17048_sample_fetch k bus SENSOR_CHAN_ALL dev
      = some (0,
          { data :=
              { voltage := 256 * ((bus dev.log.length).b0 % 256)
                  + (bus dev.log.length).b1 % 256
                state_of_charge := 256 * ((bus (dev.log.length + 1)).b0 % 256)
                  + (bus (dev.log.length + 1)).b1 % 256
                c_rate := 256 * ((bus (dev.log.length + 2)).b0 % 256)
                  + (bus (dev.log.length + 2)).b1 % 256 }
            pm_state := dev.pm_state
            log := dev.log ++ [⟨.burst_read 0x02 2, 0⟩, ⟨.burst_read 0x04 2, 0⟩,
                                ⟨.burst_read 0x16 2, 0⟩] }) := by
  have e0 := reg_read_ok bus dev.log VCELL (by omega)
  have e1 := reg_read_ok bus (dev.log ++ [⟨.burst_read (to_uint8 VCELL) 2, 0⟩]) SOC
    (by simp [h1])
  have e2 := reg_read_ok bus (dev.log ++ [⟨.burst_read (to_uint8 VCELL) 2, 0⟩]
    ++ [⟨.burst_read (to_uint8 SOC) 2, 0⟩]) CRATE (by simp [h2])
  simp only [List.length_append, List.length_singleton, h0, h1, h2] at e0 e1 e2
  simp only [max17048_sample_fetch, regs, sample_fetch_loop, e0, e1, e2, hpm,
    max17048_data.store, stored_reg_value]
  simp [to_uint8, VCELL, SOC, CRATE]


/-- Witness for `sample_fetch_success`: an active device on a bus where every read
succeeds with the bytes `AB CD`. -/
theorem sample_fetch_success_witness :
    dev_active.pm_state ≠ PM_DEVICE_STATE_OFF
    ∧ (bus_all_ok dev_active.log.length).rc = 0
    ∧ (bus_all_ok (dev_active.log.length + 1)).rc = 0
    ∧ (bus_all_ok (dev_active.log.length + 2)).rc = 0
    ∧ max17048_sample_fetch ⟨true, true⟩ bus_all_ok SENSOR_CHAN_ALL dev_active
      = some (0,
          { data := { voltage := 0xABCD, state_of_charge := 0xABCD, c_rate := 0xABCD }
            pm_state := PM_DEVICE_STATE_ACTIVE
            log := [⟨.burst_read 0x02 2, 0⟩, ⟨.burst_read 0x04 2, 0⟩,
                    ⟨.burst_read 0x16 2, 0⟩] }) :=
  ⟨by decide, by decide, by decide, by decide,
    sample_fetch_success ⟨true, true⟩ bus_all_ok dev_active (by decide) (by decide)
      (by decide) (by decide)⟩

/-- C2, as stated, fails: on a bus whose second read fails with `-EIO`, a fetch from
an active device holding the sample `(1, 2, 3)` returns the error and has already
overwritten the stored voltage with the value of the first read. -/
theorem sample_fetch_failure_overwrites :
    (bus_second_fails 1).rc < 0
    ∧ max17048_sample_fetch ⟨true, true⟩ bus_second_fails SENSOR_CHAN_ALL dev_active
        = some (-5,
            { data := { voltage := 0xABCD, state_of_charge := 2, c_rate := 3 }
              pm_state := PM_DEVICE_STATE_ACTIVE
              log := [⟨.burst_read 0x02 2, 0⟩, ⟨.burst_read 0x04 2, -5⟩] })
    ∧ ({ voltage := 0xABCD, state_of_charge := 2, c_rate := 3 } : max17048_data)
        ≠ dev_active.data := by
  decide

/-- C2, amended: when the power state is not off and the read number `i` (0, 1 or 2)
is the first to fail, a fetch returns the error code of that read; the fields whose
read is the failing one or a later one keep their value, the fields read before it
hold the value read (`256 * b0 + b1`), so that the whole stored sample is unchanged
when it is the first read that fails. -/
theorem sample_fetch_read_failure (k : Kconfig) (bus : I2cBus) (dev : Device) (i : Nat)
    (hpm : dev.pm_state ≠ PM_DEVICE_STATE_OFF) (hi : i < 3)
    (hok : ∀ j, j < i → 0 ≤ (bus (dev.log.length + j)).rc)
    (hfail : (bus (dev.log.length + i)).rc < 0) :
    ∃ dev1 : Device,
      max17048_sample_fetch k bus SENSOR_CHAN_ALL dev
        = some ((bus (dev.log.length + i)).rc, dev1)
      ∧ dev1.data.voltage
          = (if 0 < i then 256 * ((bus dev.log.length).b0 % 256)
              + (bus dev.log.length).b1 % 256 else dev.data.voltage)
      ∧ dev1.data.state_of_charge
          = (if 1 < i then 256 * ((bus (dev.log.length + 1)).b0 % 256)
              + (bus (dev.log.length + 1)).b1 % 256 else dev.data.state_of_charge)
      ∧ dev1.data.c_rate = dev.data.c_rate
      ∧ (i = 0 → dev1.data = dev.data)
      ∧ dev1.pm_state = dev.pm_state
      ∧ dev1.log.length = dev.log.length + (i + 1) := by
  have hi' : i = 0 ∨ i = 1 ∨ i = 2 := by omega
  rcases hi' with rfl | rfl | rfl
  · have e0 := reg_read_fail bus dev.log VCELL (by simpa using hfail)
    simp [max17048_sample_fetch, regs, sample_fetch_loop, e0, hpm]
  · have e0 := reg_read_ok bus dev.log VCELL (by simpa using hok 0 (by omega))
    have e1 := reg_read_fail bus
      (dev.log ++ [⟨.burst_read (to_uint8 VCELL) 2, (bus dev.log.length).rc⟩]) SOC
      (by simpa using hfail)
    simp only [List.length_append, List.length_singleton] at e1
    simp only [max17048_sample_fetch, regs, sample_fetch_loop, e0, e1, hpm,
      max17048_data.store, stored_reg_value]
    simp
  · have e0 := reg_read_ok bus dev.log VCELL (by simpa using hok 0 (by omega))
    have e1 := reg_read_ok bus
      (dev.log ++ [⟨.burst_read (to_uint8 VCELL) 2, (bus dev.log.length).rc⟩]) SOC
      (by simpa using hok 1 (by omega))
    have e2 := reg_read_fail bus
      (dev.log ++ [⟨.burst_read (to_uint8 VCELL) 2, (bus dev.log.length).rc⟩]
        ++ [⟨.burst_read (to_uint8 SOC) 2, (bus (dev.log.length + 1)).rc⟩]) CRATE
      (by simpa using hfail)
    simp only [List.length_append, List.length_singleton] at e1 e2
    simp only [max17048_sample_fetch, regs, sample_fetch_loop, e0, e1, e2, hpm,
      max17048_data.store, stored_reg_value]
    simp

/-- Witness for `sample_fetch_read_failure`: the second read (`i = 1`) fails. -/
theorem sample_fetch_read_failure_witness :
    dev_active.pm_state ≠ PM_DEVICE_STATE_OFF
    ∧ 1 < 3
    ∧ (∀ j, j < 1 → 0 ≤ (bus_second_fails (dev_active.log.length + j)).rc)
    ∧ (bus_second_fails (dev_active.log.length + 1)).rc < 0
    ∧ ∃ dev1 : Device,
      max17048_sample_fetch ⟨true, true⟩ bus_second_fails SENSOR_CHAN_ALL dev_active
        = some ((bus_second_fails (dev_active.log.length + 1)).rc, dev1)
      ∧ dev1.data.voltage
          = (if 0 < 1 then 256 * ((bus_second_fails dev_active.log.length).b0 % 256)
              + (bus_second_fails dev_active.log.length).b1 % 256
              else dev_active.data.voltage)
      ∧ dev1.data.state_of_charge
          = (if 1 < 1 then 256 * ((bus_second_fails (dev_active.log.length + 1)).b0 % 256)
              + (bus_second_fails (dev_active.log.length + 1)).b1 % 256
              else dev_active.data.state_of_charge)
      ∧ dev1.data.c_rate = dev_active.data.c_rate
      ∧ (1 = 0 → dev1.data = dev_active.data)
      ∧ dev1.pm_state = dev_active.pm_state
      ∧ dev1.log.length = dev_active.log.length + (1 + 1) :=
  have hok : ∀ j, j < 1 → 0 ≤ (bus_second_fails (dev_active.log.length + j)).rc := by
    intro j hj
    have : j = 0 := by omega
    subst this
    decide
  ⟨by decide, by decide, hok, by decide,
    sample_fetch_read_failure ⟨true, true⟩ bus_second_fails dev_active 1 (by decide)
      (by decide) hok (by decide)⟩


/-! ## Power actions -/

/-- The power action `PM_DEVICE_ACTION_TURN_OFF`, step by step. -/
theorem pm_action_turn_off_eq (bus : I2cBus) (dev : Device) :
    max17048_pm_action bus PM_DEVICE_ACTION_TURN_OFF dev =
      if (bus dev.log.length).rc < 0 then
        ((bus dev.log.length).rc,
          { dev with log := dev.log ++ [⟨.burst_read 0x0c 2, (bus dev.log.length).rc⟩] })
      else
        ((bus (dev.log.length + 1)).rc,
          { dev with log := dev.log ++
              [⟨.burst_read 0x0c 2, (bus dev.log.length).rc⟩,
               ⟨.write [0x0c,
                  ((256 * ((bus dev.log.length).b0 % 256) + (bus dev.log.length).b1 % 256)
                    ||| 0x0080) % 256,
                  ((256 * ((bus dev.log.length).b0 % 256) + (bus dev.log.length).b1 % 256)
                    ||| 0x0080) / 256],
                 (bus (dev.log.length + 1)).rc⟩] }) := by
  have ha : to_uint8 CONFIG = 0x0c := by decide
  by_cases h : (bus dev.log.length).rc < 0
  · rw [if_pos h]
    simp only [max17048_pm_action, reg_read_fail bus dev.log CONFIG h, ha]
  · rw [if_neg h]
    have hlt : (256 * ((bus dev.log.length).b0 % 256) + (bus dev.log.length).b1 % 256)
        ||| 128 < 2 ^ 16 :=
      Nat.or_lt_two_pow (by omega) (by decide)
    generalize hc : (256 * ((bus dev.log.length).b0 % 256)
      + (bus dev.log.length).b1 % 256) ||| 128 = c at hlt
    have hs : SLEEP = 128 := by decide
    have hu : to_uint16 ((c : Nat) : Int) = c := by unfold to_uint16; omega
    have h1 : c % 65536 % 256 = c % 256 := by omega
    have h2 : c % 65536 / 256 % 256 = c / 256 := by omega
    simp only [max17048_pm_action, reg_read_ok bus dev.log CONFIG (by omega), ha,
      stored_reg_value, hs, hc, hu, reg_write_eq, h1, h2, List.length_append,
      List.length_singleton, List.append_assoc, List.singleton_append]

/-- C5: on a bus that keeps the I2C contract (return codes are 0 or negative), for each
of the actions resume, suspend and turn-off, `max17048_pm_action` only adds the
transactions it issued to the bus log; it returns 0 if and only if every transaction it
issued succeeded, and otherwise returns the return code of the failing transaction.
Hence the power state, advanced to the target state of the action exactly when the action
returns 0, reaches the target state when all transactions succeeded and is unchanged
when one failed. -/
theorem pm_action_success_iff (bus : I2cBus) (action : pm_device_action) (dev : Device)
    (hbus : I2cBus.conforming bus) (hact : action ≠ PM_DEVICE_ACTION_TURN_ON) :
    ∃ issued : List I2cXfer,
      issued ≠ []
      ∧ (max17048_pm_action bus action dev).2 = { dev with log := dev.log ++ issued }
      ∧ ((max17048_pm_action bus action dev).1 = 0 ↔ ∀ x ∈ issued, x.rc = 0)
      ∧ (∀ x ∈ issued, x.rc ≠ 0 → (max17048_pm_action bus action dev).1 = x.rc)
      ∧ (apply_power_action bus action dev).1 = (max17048_pm_action bus action dev).1
      ∧ ((∀ x ∈ issued, x.rc = 0) →
          (apply_power_action bus action dev).2.pm_state = action_target_state action)
      ∧ ((∃ x ∈ issued, x.rc ≠ 0) →
          (apply_power_action bus action dev).2.pm_state = dev.pm_state) := by
  cases action with
  | PM_DEVICE_ACTION_TURN_ON => exact absurd rfl hact
  | PM_DEVICE_ACTION_RESUME =>
    refine ⟨[⟨.write [to_uint8 HIBRT, HIBRT_OFF % 65536 % 256, HIBRT_OFF % 65536 / 256 % 256],
      (bus dev.log.length).rc⟩], by simp, ?_⟩
    simp only [apply_power_action, max17048_pm_action, reg_write_eq]
    by_cases h : (bus dev.log.length).rc = 0 <;> simp [h]
  | PM_DEVICE_ACTION_SUSPEND =>
    refine ⟨[⟨.write [to_uint8 HIBRT, HIBRT_ON % 65536 % 256, HIBRT_ON % 65536 / 256 % 256],
      (bus dev.log.length).rc⟩], by simp, ?_⟩
    simp only [apply_power_action, max17048_pm_action, reg_write_eq]
    by_cases h : (bus dev.log.length).rc = 0 <;> simp [h]
  | PM_DEVICE_ACTION_TURN_OFF =>
    have hle := hbus dev.log.length
    by_cases h : (bus dev.log.length).rc < 0
    · refine ⟨[⟨.burst_read 0x0c 2, (bus dev.log.length).rc⟩], by simp, ?_⟩
      have hne : (bus dev.log.length).rc ≠ 0 := by omega
      simp only [apply_power_action, pm_action_turn_off_eq, if_pos h]
      simp [hne]
    · have h0 : (bus dev.log.length).rc = 0 := by omega
      refine ⟨[⟨.burst_read 0x0c 2, (bus dev.log.length).rc⟩,
        ⟨.write [0x0c,
          ((256 * ((bus dev.log.length).b0 % 256) + (bus dev.log.length).b1 % 256)
            ||| 0x0080) % 256,
          ((256 * ((bus dev.log.length).b0 % 256) + (bus dev.log.length).b1 % 256)
            ||| 0x0080) / 256],
        (bus (dev.log.length + 1)).rc⟩], by simp, ?_⟩
      simp only [apply_power_action, pm_action_turn_off_eq, if_neg h]
      by_cases h1 : (bus (dev.log.length + 1)).rc = 0 <;> simp [h0, h1]


/-- Witness for `pm_action_success_iff`: turn-off on a bus whose second transaction,
the write of CONFIG, fails. -/
theorem pm_action_success_iff_witness :
    I2cBus.conforming bus_second_fails
    ∧ PM_DEVICE_ACTION_TURN_OFF ≠ PM_DEVICE_ACTION_TURN_ON
    ∧ ∃ issued : List I2cXfer,
      issued ≠ []
      ∧ (max17048_pm_action bus_second_fails PM_DEVICE_ACTION_TURN_OFF dev_active).2
          = { dev_active with log := dev_active.log ++ issued }
      ∧ ((max17048_pm_action bus_second_fails PM_DEVICE_ACTION_TURN_OFF dev_active).1 = 0
          ↔ ∀ x ∈ issued, x.rc = 0)
      ∧ (∀ x ∈ issued, x.rc ≠ 0 →
          (max17048_pm_action bus_second_fails PM_DEVICE_ACTION_TURN_OFF dev_active).1 = x.rc)
      ∧ (apply_power_action bus_second_fails PM_DEVICE_ACTION_TURN_OFF dev_active).1
          = (max17048_pm_action bus_second_fails PM_DEVICE_ACTION_TURN_OFF dev_active).1
      ∧ ((∀ x ∈ issued, x.rc = 0) →
          (apply_power_action bus_second_fails PM_DEVICE_ACTION_TURN_OFF dev_active).2.pm_state
            = action_target_state PM_DEVICE_ACTION_TURN_OFF)
      ∧ ((∃ x ∈ issued, x.rc ≠ 0) →
          (apply_power_action bus_second_fails PM_DEVICE_ACTION_TURN_OFF dev_active).2.pm_state
            = dev_active.pm_state) :=
  have hbus : I2cBus.conforming bus_second_fails := by
    intro n
    unfold bus_second_fails
    split <;> decide
  ⟨hbus, by decide,
    pm_action_success_iff bus_second_fails PM_DEVICE_ACTION_TURN_OFF dev_active hbus
      (by decide)⟩

/-- C10: turn-off first issues a 2-byte read of CONFIG (`0x0c`). If the read fails,
nothing else reaches the bus and the return code of the read is returned. Otherwise,
with `c = 256 * b0 + b1` the 16-bit value read, exactly one write follows: the frame
`[0x0c, v % 256, v / 256]` carrying the 16-bit value `v = c | 0x0080`, which is `c`
with bit 7 set and every other bit unchanged; the return code of that write is
returned. -/
theorem pm_action_turn_off (bus : I2cBus) (dev : Device) :
    ∃ c : Nat,
      c = 256 * ((bus dev.log.length).b0 % 256) + (bus dev.log.length).b1 % 256
      ∧ c ≤ 65535
      ∧ max17048_pm_action bus PM_DEVICE_ACTION_TURN_OFF dev =
          (if (bus dev.log.length).rc < 0 then
            ((bus dev.log.length).rc,
              { dev with
                log := dev.log ++ [⟨.burst_read 0x0c 2, (bus dev.log.length).rc⟩] })
          else
            ((bus (dev.log.length + 1)).rc,
              { dev with
                log := dev.log ++
                  [⟨.burst_read 0x0c 2, (bus dev.log.length).rc⟩,
                   ⟨.write [0x0c, (c ||| 0x0080) % 256, (c ||| 0x0080) / 256],
                     (bus (dev.log.length + 1)).rc⟩] }))
      ∧ c ||| 0x0080 ≤ 65535
      ∧ (c ||| 0x0080) % 256 + 256 * ((c ||| 0x0080) / 256) = c ||| 0x0080
      ∧ (∀ i : Nat, (c ||| 0x0080).testBit i = (c.testBit i || decide (i = 7)))
      ∧ SLEEP = 0x0080 := by
  refine ⟨_, rfl, by omega, pm_action_turn_off_eq bus dev, ?_, by omega, ?_, by decide⟩
  · have h : (256 * ((bus dev.log.length).b0 % 256) + (bus dev.log.length).b1 % 256)
        ||| 128 < 2 ^ 16 :=
      Nat.or_lt_two_pow (by omega) (by decide)
    omega
  · intro i
    have h7 : (128 : Nat) = 2 ^ 7 := by decide
    rw [Nat.testBit_or, h7, Nat.testBit_two_pow]
    by_cases hi : i = 7
    · subst hi; simp
    · have hi' : ¬ 7 = i := fun h => hi h.symm
      simp [hi, hi']

/-- C11: from any device state, resume performs exactly one bus transaction, the write
frame `[0x0a, 0x00, 0x00]` (value `0x0000` to HIBRT), and suspend exactly one, the write
frame `[0x0a, 0xFF, 0xFF]` (value `0xFFFF` to HIBRT); neither issues a read, and each
returns the return code of its write. -/
theorem pm_action_resume_suspend (bus : I2cBus) (dev : Device) :
    max17048_pm_action bus PM_DEVICE_ACTION_RESUME dev
      = ((bus dev.log.length).rc,
          { dev with
            log := dev.log ++ [⟨.write [0x0a, 0x00, 0x00], (bus dev.log.length).rc⟩] })
    ∧ max17048_pm_action bus PM_DEVICE_ACTION_SUSPEND dev
      = ((bus dev.log.length).rc,
          { dev with
            log := dev.log ++ [⟨.write [0x0a, 0xFF, 0xFF], (bus dev.log.length).rc⟩] })
    ∧ HIBRT = 0x0a ∧ HIBRT_OFF = 0x0000 ∧ HIBRT_ON = 0xFFFF := by
  have ha : to_uint8 HIBRT = 0x0a := by decide
  have h1 : HIBRT_OFF % 65536 % 256 = 0 ∧ HIBRT_OFF % 65536 / 256 % 256 = 0 := by decide
  have h2 : HIBRT_ON % 65536 % 256 = 0xFF ∧ HIBRT_ON % 65536 / 256 % 256 = 0xFF := by
    decide
  refine ⟨?_, ?_, by decide, by decide, by decide⟩
  · simp only [max17048_pm_action, reg_write_eq, ha, h1.1, h1.2]
  · simp only [max17048_pm_action, reg_write_eq, ha, h2.1, h2.2]

/-- C12: for every register address `a` in [0, 255] and every 16-bit value `v`,
`max17048_reg_write` adds exactly one transaction to the bus log, a write of exactly the
three bytes `[a, v % 256, v / 256]` (address, least-significant byte, most-significant
byte), and returns the return code of the bus unmodified; the write of suspend
(`0xFFFF` to HIBRT) is `[0x0a, 0xFF, 0xFF]`. -/
theorem reg_write_frame (bus : I2cBus) (log : List I2cXfer) (a v : Nat)
    (ha : a ≤ 255) (hv : v ≤ 65535) :
    max17048_reg_write bus log (a : Int) v
      = ((bus log.length).rc,
          log ++ [⟨.write [a, v % 256, v / 256], (bus log.length).rc⟩])
    ∧ [a, v % 256, v / 256].length = 3
    ∧ max17048_reg_write bus log HIBRT HIBRT_ON
      = ((bus log.length).rc,
          log ++ [⟨.write [0x0a, 0xFF, 0xFF], (bus log.length).rc⟩]) := by
  have h0 : to_uint8 (a : Int) = a := by unfold to_uint8; omega
  have h1 : v % 65536 % 256 = v % 256 := by omega
  have h2 : v % 65536 / 256 % 256 = v / 256 := by omega
  have hb : to_uint8 HIBRT = 0x0a := by decide
  have h3 : HIBRT_ON % 65536 % 256 = 0xFF ∧ HIBRT_ON % 65536 / 256 % 256 = 0xFF := by
    decide
  refine ⟨?_, rfl, ?_⟩
  · rw [reg_write_eq, h0, h1, h2]
  · rw [reg_write_eq, hb, h3.1, h3.2]

/-- Witness for `reg_write_frame`: the value `0xFFFF` written to HIBRT (`0x0a`). -/
theorem reg_write_frame_witness :
    (0x0a : Nat) ≤ 255 ∧ (0xFFFF : Nat) ≤ 65535
    ∧ max17048_reg_write bus_all_ok [] ((0x0a : Nat) : Int) 0xFFFF
      = ((bus_all_ok ([] : List I2cXfer).length).rc,
          [] ++ [⟨.write [0x0a, 0xFFFF % 256, 0xFFFF / 256],
                  (bus_all_ok ([] : List I2cXfer).length).rc⟩]) :=
  ⟨by decide, by decide, (reg_write_frame bus_all_ok [] 0x0a 0xFFFF (by decide) (by decide)).1⟩

/-- C13: when the 2-byte burst read succeeds with the bytes `b0`, `b1` (in wire order),
`max17048_reg_read` adds that one read to the bus log and stores the `int16_t` value
of `b0 * 256 + b1`, which is negative when `b0 >= 0x80`; read back from the
`uint16_t` field it was stored in, the value is `b0 * 256 + b1` for every `b0`,
first byte most significant. -/
theorem reg_read_value (bus : I2cBus) (log : List I2cXfer) (reg_addr : Int)
    (hrc : (bus log.length).rc = 0)
    (h0 : (bus log.length).b0 ≤ 255) (h1 : (bus log.length).b1 ≤ 255) :
    ∃ v : Int,
      max17048_reg_read bus log reg_addr
        = (.ok v, log ++ [⟨.burst_read (to_uint8 reg_addr) 2, 0⟩])
      ∧ v = (if 128 ≤ (bus log.length).b0
              then ((bus log.length).b0 : Int) * 256 + (bus log.length).b1 - 65536
              else ((bus log.length).b0 : Int) * 256 + (bus log.length).b1)
      ∧ to_uint16 v = (bus log.length).b0 * 256 + (bus log.length).b1
      ∧ (∀ d : max17048_data,
          (d.store .voltage v).voltage = (bus log.length).b0 * 256 + (bus log.length).b1
          ∧ (d.store .state_of_charge v).state_of_charge
              = (bus log.length).b0 * 256 + (bus log.length).b1
          ∧ (d.store .c_rate v).c_rate
              = (bus log.length).b0 * 256 + (bus log.length).b1) := by
  have e := reg_read_ok bus log reg_addr (by omega)
  rw [hrc] at e
  have hs := stored_reg_value (bus log.length).b0 (bus log.length).b1
  have hm0 : (bus log.length).b0 % 256 = (bus log.length).b0 := by omega
  have hm1 : (bus log.length).b1 % 256 = (bus log.length).b1 := by omega
  rw [hm0, hm1] at hs
  refine ⟨_, e, ?_, by omega, ?_⟩
  · rw [reg_value_eq, hm0, hm1]
    unfold to_int16
    split <;> omega
  · intro d
    simp only [max17048_data.store]
    omega

/-- Witness for `reg_read_value`: the bytes `AB CD`, whose first byte is above `0x80`. -/
theorem reg_read_value_witness :
    (bus_all_ok ([] : List I2cXfer).length).rc = 0
    ∧ (bus_all_ok ([] : List I2cXfer).length).b0 ≤ 255
    ∧ (bus_all_ok ([] : List I2cXfer).length).b1 ≤ 255
    ∧ ∃ v : Int,
      max17048_reg_read bus_all_ok [] VCELL = (.ok v, [⟨.burst_read 0x02 2, 0⟩])
      ∧ to_uint16 v = 0xABCD :=
  ⟨by decide, by decide, by decide,
    (reg_read_value bus_all_ok [] VCELL (by decide) (by decide) (by decide)).imp
      fun _ h => ⟨h.1, h.2.2.1⟩⟩

/-! ## The conversions on 16-bit samples -/

theorem voltage_eval (priv : max17048_data) (valp : sensor_value)
    (hv : priv.voltage ≤ 65535) :
    max17048_channel_get priv SENSOR_CHAN_GAUGE_VOLTAGE valp
      = some (0, ⟨((priv.voltage * 625 / 8 / 1000000 : Nat) : Int),
                  ((priv.voltage * 625 / 8 % 1000000 : Nat) : Int)⟩) := by
  have h1 : int_mul (priv.voltage : Int) 625 = some ((priv.voltage : Int) * 625) :=
    int_mul_eq _ _ (by omega) (by omega)
  have h2 : int_div ((priv.voltage : Int) * 625) 8
      = some ((priv.voltage : Int) * 625 / 8) :=
    int_div_eq _ _ (by omega) (by omega) (by omega)
  have h3 : to_uint32 ((priv.voltage : Int) * 625 / 8) = priv.voltage * 625 / 8 := by
    have : (priv.voltage : Int) * 625 / 8 = ((priv.voltage * 625 / 8 : Nat) : Int) := by
      push_cast; rfl
    rw [this]; exact to_uint32_eq _ (by omega)
  simp [max17048_channel_get, h1, h2, h3, u32_div, u32_mod]
  constructor <;> exact to_int32_eq _ (by omega) (by omega)

theorem state_of_charge_eval (priv : max17048_data) (valp : sensor_value)
    (hs : priv.state_of_charge ≤ 65535) :
    max17048_channel_get priv SENSOR_CHAN_GAUGE_STATE_OF_CHARGE valp
      = some (0, ⟨((priv.state_of_charge / 256 : Nat) : Int),
                  ((priv.state_of_charge % 256 * 1000000 / 256 : Nat) : Int)⟩) := by
  have h1 : int_div (priv.state_of_charge : Int) 256
      = some ((priv.state_of_charge : Int) / 256) :=
    int_div_eq _ _ (by omega) (by omega) (by omega)
  have h2 : int_mod (priv.state_of_charge : Int) 256
      = some ((priv.state_of_charge : Int) % 256) :=
    int_mod_eq _ _ (by omega) (by omega) (by omega)
  have h3 : int_mul ((priv.state_of_charge : Int) % 256) 1000000
      = some ((priv.state_of_charge : Int) % 256 * 1000000) :=
    int_mul_eq _ _ (by omega) (by omega)
  have h4 : int_div ((priv.state_of_charge : Int) % 256 * 1000000) 256
      = some ((priv.state_of_charge : Int) % 256 * 1000000 / 256) :=
    int_div_eq _ _ (by omega) (by omega) (by omega)
  simp [max17048_channel_get, h1, h2, h3, h4]
  constructor <;> exact to_int32_eq _ (by omega) (by omega)

theorem time_to_empty_eval (priv : max17048_data) (valp : sensor_value)
    (hs : priv.state_of_charge ≤ 65535) (hc : priv.c_rate ≤ 65535) :
    max17048_channel_get priv SENSOR_CHAN_GAUGE_TIME_TO_EMPTY valp
      = (if priv.c_rate = 0 then some (0, ⟨0, 0⟩)
          else if priv.c_rate * 26 / 125 = 0 then none
          else some (0, ⟨((priv.state_of_charge / 256 / (priv.c_rate * 26 / 125) * 60
                  : Nat) : Int), 0⟩)) := by
  have h0 : to_uint32 (priv.c_rate : Int) = priv.c_rate := to_uint32_eq _ (by omega)
  have h1 : int_div (priv.state_of_charge : Int) 256
      = some (((priv.state_of_charge / 256 : Nat) : Int)) := by
    rw [int_div_eq _ _ (by omega) (by omega) (by omega)]; push_cast; rfl
  have h2 : u32_mul priv.c_rate 26 = priv.c_rate * 26 := by unfold u32_mul; omega
  have h3 : to_uint32 (((priv.state_of_charge / 256 : Nat) : Int))
      = priv.state_of_charge / 256 := to_uint32_eq _ (by omega)
  have h125 : ¬ (125 : Nat) = 0 := by decide
  by_cases hz : priv.c_rate = 0
  · have hz0 : to_uint32 ((0 : Nat) : Int) = 0 := by decide
    simp only [max17048_channel_get, hz, hz0, gt_iff_lt, Nat.lt_irrefl, if_false, if_true]
  · have hpos : 0 < priv.c_rate := by omega
    by_cases hr : priv.c_rate * 26 / 125 = 0
    · simp only [max17048_channel_get, h0, gt_iff_lt, hpos, if_true, h1, h2, h3, u32_div,
        if_neg h125, if_neg hz, hr, Option.bind_eq_bind, Option.some_bind, Option.none_bind]
    · have hq : priv.state_of_charge / 256 / (priv.c_rate * 26 / 125) ≤ 255 :=
        le_trans (Nat.div_le_self _ _) (by omega)
      have h4 : u32_mul (priv.state_of_charge / 256 / (priv.c_rate * 26 / 125)) 60
          = priv.state_of_charge / 256 / (priv.c_rate * 26 / 125) * 60 := by
        unfold u32_mul; omega
      have h5 : to_int32 ((priv.state_of_charge / 256 / (priv.c_rate * 26 / 125) * 60
          : Nat) : Int)
          = ((priv.state_of_charge / 256 / (priv.c_rate * 26 / 125) * 60 : Nat) : Int) :=
        to_int32_eq _ (by omega) (by omega)
      simp only [max17048_channel_get, h0, gt_iff_lt, hpos, if_true, h1, h2, h3, u32_div,
        if_neg hr, if_neg h125, if_neg hz, h4, h5, Option.bind_eq_bind, Option.some_bind]

/-- C14: for every channel other than voltage, state of charge and time to empty, and
every stored sample, `max17048_channel_get` returns `-ENOTSUP` (not 0) and leaves the
caller's value as it was; the stored sample is only read by the function. For the three
supported channels it never returns `-ENOTSUP`. -/
theorem channel_get_unsupported (priv : max17048_data) (chan : sensor_channel)
    (valp : sensor_value)
    (hchan : chan ≠ SENSOR_CHAN_GAUGE_VOLTAGE ∧ chan ≠ SENSOR_CHAN_GAUGE_STATE_OF_CHARGE
      ∧ chan ≠ SENSOR_CHAN_GAUGE_TIME_TO_EMPTY) :
    max17048_channel_get priv chan valp = some (- ENOTSUP, valp)
    ∧ - ENOTSUP ≠ 0
    ∧ ∀ (p : max17048_data) (v out : sensor_value),
        max17048_channel_get p SENSOR_CHAN_GAUGE_VOLTAGE v ≠ some (- ENOTSUP, out)
        ∧ max17048_channel_get p SENSOR_CHAN_GAUGE_STATE_OF_CHARGE v
            ≠ some (- ENOTSUP, out)
        ∧ max17048_channel_get p SENSOR_CHAN_GAUGE_TIME_TO_EMPTY v
            ≠ some (- ENOTSUP, out) := by
  obtain ⟨hv, hs, ht⟩ := hchan
  have hne : - ENOTSUP ≠ 0 := by decide
  refine ⟨?_, hne, ?_⟩
  · cases chan with
    | SENSOR_CHAN_GAUGE_VOLTAGE => exact absurd rfl hv
    | SENSOR_CHAN_GAUGE_STATE_OF_CHARGE => exact absurd rfl hs
    | SENSOR_CHAN_GAUGE_TIME_TO_EMPTY => exact absurd rfl ht
    | SENSOR_CHAN_ALL => rfl
    | other n => rfl
  · intro p v out
    refine ⟨?_, ?_, ?_⟩
    · intro h
      simp only [max17048_channel_get, Option.bind_eq_bind, Option.bind_eq_some,
        Option.some.injEq, Prod.mk.injEq] at h
      obtain ⟨_, _, _, _, _, _, _, _, h0, _⟩ := h
      exact hne h0.symm
    · intro h
      simp only [max17048_channel_get, Option.bind_eq_bind, Option.bind_eq_some,
        Option.some.injEq, Prod.mk.injEq] at h
      obtain ⟨_, _, _, _, _, _, _, _, h0, _⟩ := h
      exact hne h0.symm
    · intro h
      simp only [max17048_channel_get] at h
      split at h
      · simp only [Option.bind_eq_bind, Option.bind_eq_some,
          Option.some.injEq, Prod.mk.injEq] at h
        obtain ⟨_, _, _, _, _, _, h0, _⟩ := h
        exact hne h0.symm
      · simp only [Option.some.injEq, Prod.mk.injEq] at h
        exact hne h.1.symm

/-- Witness for `channel_get_unsupported`: the channel `SENSOR_CHAN_ALL`. -/
theorem channel_get_unsupported_witness :
    (SENSOR_CHAN_ALL ≠ SENSOR_CHAN_GAUGE_VOLTAGE
      ∧ SENSOR_CHAN_ALL ≠ SENSOR_CHAN_GAUGE_STATE_OF_CHARGE
      ∧ SENSOR_CHAN_ALL ≠ SENSOR_CHAN_GAUGE_TIME_TO_EMPTY)
    ∧ max17048_channel_get ⟨1, 2, 3⟩ SENSOR_CHAN_ALL ⟨7, 8⟩ = some (- ENOTSUP, ⟨7, 8⟩) :=
  ⟨by decide,
    (channel_get_unsupported ⟨1, 2, 3⟩ SENSOR_CHAN_ALL ⟨7, 8⟩ (by decide)).1⟩

/-- C17: for every sample of 16-bit values, the products `voltage * 625`,
`(state_of_charge % 256) * 1000000` and `c_rate * 26` are below `2^31`: the signed
multiplications do not overflow and the unsigned one does not wrap. On each supported
channel the 32-bit evaluation of `max17048_channel_get` therefore gives the result of the
same formulas over unbounded integers (and has no result exactly where those divide by
zero). -/
theorem channel_get_no_overflow (priv : max17048_data) (chan : sensor_channel)
    (valp : sensor_value) (hwf : priv.wf)
    (hchan : chan = SENSOR_CHAN_GAUGE_VOLTAGE ∨ chan = SENSOR_CHAN_GAUGE_STATE_OF_CHARGE
      ∨ chan = SENSOR_CHAN_GAUGE_TIME_TO_EMPTY) :
    (priv.voltage * 625 < 2 ^ 31
      ∧ priv.state_of_charge % 256 * 1000000 < 2 ^ 31
      ∧ priv.c_rate * 26 < 2 ^ 31)
    ∧ int_mul (priv.voltage : Int) 625 = some ((priv.voltage * 625 : Nat) : Int)
    ∧ int_mul ((priv.state_of_charge % 256 : Nat) : Int) 1000000
        = some ((priv.state_of_charge % 256 * 1000000 : Nat) : Int)
    ∧ u32_mul (to_uint32 (priv.c_rate : Int)) 26 = priv.c_rate * 26
    ∧ max17048_channel_get priv chan valp
        = (get_value_unbounded priv chan).map
            (fun p => ((0 : Int), ({ val1 := (p.1 : Int), val2 := (p.2 : Int) }
              : sensor_value))) := by
  obtain ⟨hv, hs, hc⟩ := hwf
  refine ⟨⟨by omega, by omega, by omega⟩, ?_, ?_, ?_, ?_⟩
  · rw [int_mul_eq _ _ (by omega) (by omega)]; push_cast; rfl
  · rw [int_mul_eq _ _ (by omega) (by omega)]; push_cast; rfl
  · rw [to_uint32_eq _ (by omega)]; unfold u32_mul; omega
  · rcases hchan with rfl | rfl | rfl
    · rw [voltage_eval priv valp hv]; rfl
    · rw [state_of_charge_eval priv valp hs]; rfl
    · rw [time_to_empty_eval priv valp hs hc]
      simp only [get_value_unbounded]
      split
      · rfl
      · split <;> rfl

/-- Witness for `channel_get_no_overflow`: the largest sample, on the voltage channel. -/
theorem channel_get_no_overflow_witness :
    max17048_data.wf ⟨65535, 65535, 65535⟩
    ∧ (65535 * 625 < 2 ^ 31 ∧ 65535 % 256 * 1000000 < 2 ^ 31 ∧ 65535 * 26 < 2 ^ 31)
    ∧ max17048_channel_get ⟨65535, 65535, 65535⟩ SENSOR_CHAN_GAUGE_VOLTAGE ⟨0, 0⟩
        = (get_value_unbounded ⟨65535, 65535, 65535⟩ SENSOR_CHAN_GAUGE_VOLTAGE).map
            (fun p => ((0 : Int), ({ val1 := (p.1 : Int), val2 := (p.2 : Int) }
              : sensor_value))) :=
  have hwf : max17048_data.wf ⟨65535, 65535, 65535⟩ := by
    unfold max17048_data.wf; decide
  have h := channel_get_no_overflow ⟨65535, 65535, 65535⟩ SENSOR_CHAN_GAUGE_VOLTAGE
    ⟨0, 0⟩ hwf (Or.inl rfl)
  ⟨hwf, h.1, h.2.2.2.2⟩

/-- C18: for every sample of 16-bit values and every supported channel on which
`max17048_channel_get` has a result, the return code is 0 and the reported pair is a
well-formed fixed-point pair: the whole part is not negative and the fractional part
lies in [0, 1000000); the whole part is at most 5 for the voltage and at most 255 for
the state of charge. -/
theorem channel_get_well_formed (priv : max17048_data) (chan : sensor_channel)
    (valp : sensor_value) (rc : Int) (out : sensor_value) (hwf : priv.wf)
    (hchan : chan = SENSOR_CHAN_GAUGE_VOLTAGE ∨ chan = SENSOR_CHAN_GAUGE_STATE_OF_CHARGE
      ∨ chan = SENSOR_CHAN_GAUGE_TIME_TO_EMPTY)
    (hres : max17048_channel_get priv chan valp = some (rc, out)) :
    rc = 0 ∧ 0 ≤ out.val1 ∧ 0 ≤ out.val2 ∧ out.val2 < 1000000
    ∧ (chan = SENSOR_CHAN_GAUGE_VOLTAGE → out.val1 ≤ 5)
    ∧ (chan = SENSOR_CHAN_GAUGE_STATE_OF_CHARGE → out.val1 ≤ 255) := by
  obtain ⟨hv, hs, hc⟩ := hwf
  rcases hchan with rfl | rfl | rfl
  · rw [voltage_eval priv valp hv] at hres
    simp only [Option.some.injEq, Prod.mk.injEq] at hres
    obtain ⟨h0, rfl⟩ := hres
    refine ⟨h0.symm, ?_, ?_, ?_, ?_, ?_⟩
    all_goals first
      | (intro h; cases h; done)
      | (intro _; simp only []; omega)
      | (simp only []; omega)
  · rw [state_of_charge_eval priv valp hs] at hres
    simp only [Option.some.injEq, Prod.mk.injEq] at hres
    obtain ⟨h0, rfl⟩ := hres
    refine ⟨h0.symm, ?_, ?_, ?_, ?_, ?_⟩
    all_goals first
      | (intro h; cases h; done)
      | (intro _; simp only []; omega)
      | (simp only []; omega)
  · rw [time_to_empty_eval priv valp hs hc] at hres
    by_cases hz : priv.c_rate = 0
    · rw [if_pos hz] at hres
      simp only [Option.some.injEq, Prod.mk.injEq] at hres
      obtain ⟨h0, rfl⟩ := hres
      refine ⟨h0.symm, ?_, ?_, ?_, ?_, ?_⟩
      all_goals first
        | (intro h; cases h)
        | (simp only []; omega)
    · rw [if_neg hz] at hres
      by_cases hr : priv.c_rate * 26 / 125 = 0
      · rw [if_pos hr] at hres
        cases hres
      · rw [if_neg hr] at hres
        simp only [Option.some.injEq, Prod.mk.injEq] at hres
        obtain ⟨h0, rfl⟩ := hres
        refine ⟨h0.symm, ?_, ?_, ?_, ?_, ?_⟩
        all_goals first
          | (intro h; cases h)
          | (simp only []; omega)

/-- Witness for `channel_get_well_formed`: the voltage channel at raw voltage `0x4000`. -/
theorem channel_get_well_formed_witness :
    max17048_data.wf ⟨0x4000, 0x3200, 5⟩
    ∧ max17048_channel_get ⟨0x4000, 0x3200, 5⟩ SENSOR_CHAN_GAUGE_VOLTAGE ⟨0, 0⟩
        = some (0, ⟨1, 280000⟩)
    ∧ (0 : Int) = 0 ∧ (0 : Int) ≤ 1 ∧ (0 : Int) ≤ 280000 ∧ (280000 : Int) < 1000000 :=
  have hwf : max17048_data.wf ⟨0x4000, 0x3200, 5⟩ := by
    unfold max17048_data.wf; decide
  have hres : max17048_channel_get ⟨0x4000, 0x3200, 5⟩ SENSOR_CHAN_GAUGE_VOLTAGE ⟨0, 0⟩
      = some (0, ⟨1, 280000⟩) := by decide
  have h := channel_get_well_formed ⟨0x4000, 0x3200, 5⟩ SENSOR_CHAN_GAUGE_VOLTAGE ⟨0, 0⟩
    0 ⟨1, 280000⟩ hwf (Or.inl rfl) hres
  ⟨hwf, hres, h.1, h.2.1, h.2.2.1, h.2.2.2.1⟩

/-- C20: on the voltage channel and on the state-of-charge channel, the reported value
`whole * 1000000 + fractional` is strictly increasing in the raw 16-bit register
value: for raw values `a < b <= 65535` both conversions succeed and the value reported
for `a` is strictly less than the value reported for `b`. -/
theorem channel_get_strictly_increasing (a b x y : Nat) (valp : sensor_value)
    (hab : a < b) (hb : b ≤ 65535) :
    (∃ oa ob : sensor_value,
      max17048_channel_get ⟨a, x, y⟩ SENSOR_CHAN_GAUGE_VOLTAGE valp = some (0, oa)
      ∧ max17048_channel_get ⟨b, x, y⟩ SENSOR_CHAN_GAUGE_VOLTAGE valp = some (0, ob)
      ∧ oa.val1 * 1000000 + oa.val2 < ob.val1 * 1000000 + ob.val2)
    ∧ (∃ oa ob : sensor_value,
      max17048_channel_get ⟨x, a, y⟩ SENSOR_CHAN_GAUGE_STATE_OF_CHARGE valp = some (0, oa)
      ∧ max17048_channel_get ⟨x, b, y⟩ SENSOR_CHAN_GAUGE_STATE_OF_CHARGE valp
          = some (0, ob)
      ∧ oa.val1 * 1000000 + oa.val2 < ob.val1 * 1000000 + ob.val2) := by
  have ha : a ≤ 65535 := by omega
  constructor
  · refine ⟨_, _, voltage_eval ⟨a, x, y⟩ valp ha, voltage_eval ⟨b, x, y⟩ valp hb, ?_⟩
    simp only []
    omega
  · refine ⟨_, _, state_of_charge_eval ⟨x, a, y⟩ valp ha,
      state_of_charge_eval ⟨x, b, y⟩ valp hb, ?_⟩
    simp only []
    omega

/-- Witness for `channel_get_strictly_increasing`: the raw values 255 and 256, where
the whole part of the state of charge steps from 0 to 1. -/
theorem channel_get_strictly_increasing_witness :
    (255 : Nat) < 256 ∧ (256 : Nat) ≤ 65535
    ∧ (∃ oa ob : sensor_value,
      max17048_channel_get ⟨0, 255, 0⟩ SENSOR_CHAN_GAUGE_STATE_OF_CHARGE ⟨0, 0⟩
        = some (0, oa)
      ∧ max17048_channel_get ⟨0, 256, 0⟩ SENSOR_CHAN_GAUGE_STATE_OF_CHARGE ⟨0, 0⟩
          = some (0, ob)
      ∧ oa.val1 * 1000000 + oa.val2 < ob.val1 * 1000000 + ob.val2) :=
  ⟨by decide, by decide,
    (channel_get_strictly_increasing 255 256 0 0 ⟨0, 0⟩ (by decide) (by decide)).2⟩

/-! ## Initialisation -/

/-- The function `max17048_gauge_init` on a ready bus, step by step. -/
theorem gauge_init_ready_eq (config : max17048_config) (bus : I2cBus) (dev : Device) :
    max17048_gauge_init config true bus dev =
      if (bus dev.log.length).rc < 0 then
        (- EIO,
          { dev with log := dev.log ++ [⟨.burst_read 0x1a 2, (bus dev.log.length).rc⟩] })
      else if config.enable_sleep = true then
        ((bus (dev.log.length + 1)).rc,
          { dev with log := dev.log ++
              [⟨.burst_read 0x1a 2, (bus dev.log.length).rc⟩,
               ⟨.write [0x06, 0x00, 0x20], (bus (dev.log.length + 1)).rc⟩] })
      else
        (0, { dev with log := dev.log ++ [⟨.burst_read 0x1a 2, (bus dev.log.length).rc⟩] })
    := by
  have ha : to_uint8 STATUS = 0x1a := by decide
  have hm : to_uint8 MODE = 0x06 := by decide
  have h1 : ENSLEEP % 65536 % 256 = 0x00 ∧ ENSLEEP % 65536 / 256 % 256 = 0x20 := by decide
  by_cases h : (bus dev.log.length).rc < 0
  · rw [if_pos h]
    simp only [max17048_gauge_init, reg_read_fail bus dev.log STATUS h, ha]
    simp
  · rw [if_neg h]
    by_cases hs : config.enable_sleep = true
    · rw [if_pos hs]
      simp only [max17048_gauge_init, reg_read_ok bus dev.log STATUS (by omega), ha, hm, hs,
        reg_write_eq, h1.1, h1.2, List.length_append, List.length_singleton,
        List.append_assoc, List.singleton_append]
      simp
    · rw [if_neg hs]
      simp only [max17048_gauge_init, reg_read_ok bus dev.log STATUS (by omega), ha, hs]
      simp

/-- C15: the write path of init does not map a transport error to `-EIO`. On a ready bus
with `enable_sleep` set, when the STATUS probe succeeds and the write of MODE (value
`0x2000`, frame `[0x06, 0x00, 0x20]`) fails with `-EBUSY` (`-16`), `max17048_gauge_init`
returns `-16`, which is not `-EIO`. -/
theorem gauge_init_write_error_passed_through :
    max17048_gauge_init ⟨true⟩ true bus_second_busy dev_active
      = (-16,
          { dev_active with
            log := [⟨.burst_read 0x1a 2, 0⟩, ⟨.write [0x06, 0x00, 0x20], -16⟩] })
    ∧ (-16 : Int) ≠ - EIO
    ∧ ENSLEEP = 0x2000 := by
  decide

/-- C16: when the bus is not ready, `max17048_gauge_init` returns `-ENODEV` (`-19`),
not the `-EINVAL` (`-22`) of its documentation, and leaves the device, bus log
included, as it was. -/
theorem gauge_init_bus_not_ready (config : max17048_config) (bus : I2cBus) (dev : Device) :
    max17048_gauge_init config false bus dev = (- ENODEV, dev)
    ∧ - ENODEV ≠ - EINVAL
    ∧ - ENODEV = -19 ∧ - EINVAL = -22 := by
  refine ⟨?_, by decide, by decide, by decide⟩
  simp [max17048_gauge_init]

/-! ## Turn-off on the wire -/

/-- Setting bit 7 of a 16-bit value touches its low byte only. -/
theorem or_sleep_bytes (b0 b1 : Nat) (h1 : b1 ≤ 255) :
    ((256 * b0 + b1) ||| 0x0080) % 256 = b1 ||| 0x0080
    ∧ ((256 * b0 + b1) ||| 0x0080) / 256 = b0 := by
  have hb : b1 < 2 ^ 8 := by omega
  have hlt : b1 ||| 128 < 2 ^ 8 := Nat.or_lt_two_pow hb (by decide)
  have e : (256 * b0 + b1) ||| 128 = 256 * b0 + (b1 ||| 128) := by
    have e1 : 256 * b0 + b1 = 2 ^ 8 * b0 ||| b1 := Nat.mul_add_lt_is_or hb b0
    have e2 : 256 * b0 + (b1 ||| 128) = 2 ^ 8 * b0 ||| (b1 ||| 128) :=
      Nat.mul_add_lt_is_or hlt b0
    rw [e1, e2, Nat.lor_assoc]
  rw [e]
  omega

/-- C19, as stated, fails: when the CONFIG read of turn-off returns the data bytes
`97 1C` (in wire order), the write that follows carries the data bytes `9C 97`, not
`97 9C`: the second byte read, with bit 7 set, goes out first and the first byte
read goes out second. -/
theorem turn_off_swaps_config_bytes :
    max17048_pm_action bus_config_default PM_DEVICE_ACTION_TURN_OFF dev_active
      = (0,
          { dev_active with
            log := [⟨.burst_read 0x0c 2, 0⟩, ⟨.write [0x0c, 0x9C, 0x97], 0⟩] })
    ∧ (bus_config_default 0).b0 = 0x97 ∧ (bus_config_default 0).b1 = 0x1C
    ∧ ([0x9C, 0x97] : List Nat) ≠ [0x97, 0x1C ||| 0x80] := by
  decide

/-- C19, amended: for every pair of data bytes `(b0, b1)` the device returns, in wire
order, for the CONFIG read of turn-off, the read succeeding, the two data bytes
turn-off then sends to CONFIG are, in wire order, `(b1 | 0x80, b0)`. The read is
decoded first byte most significant and the write is encoded least-significant byte
first, so the frame carries the 16-bit value `(b0 * 256 + b1) | 0x0080`: bit 7 of the
value read is set, every other bit of it is unchanged, and its two bytes go out in
the order opposite to the one they were read in. -/
theorem turn_off_wire_bytes (bus : I2cBus) (dev : Device)
    (hrc : 0 ≤ (bus dev.log.length).rc)
    (h0 : (bus dev.log.length).b0 ≤ 255) (h1 : (bus dev.log.length).b1 ≤ 255) :
    max17048_pm_action bus PM_DEVICE_ACTION_TURN_OFF dev
      = ((bus (dev.log.length + 1)).rc,
          { dev with log := dev.log ++
              [⟨.burst_read 0x0c 2, (bus dev.log.length).rc⟩,
               ⟨.write [0x0c, (bus dev.log.length).b1 ||| 0x0080, (bus dev.log.length).b0],
                 (bus (dev.log.length + 1)).rc⟩] })
    ∧ ((bus dev.log.length).b1 ||| 0x0080) + 256 * (bus dev.log.length).b0
        = (256 * (bus dev.log.length).b0 + (bus dev.log.length).b1) ||| 0x0080
    ∧ (bus dev.log.length).b1 ||| 0x0080 ≤ 255
    ∧ (∀ i : Nat, ((bus dev.log.length).b1 ||| 0x0080).testBit i
        = ((bus dev.log.length).b1.testBit i || decide (i = 7))) := by
  have hm0 : (bus dev.log.length).b0 % 256 = (bus dev.log.length).b0 := by omega
  have hm1 : (bus dev.log.length).b1 % 256 = (bus dev.log.length).b1 := by omega
  have hb := or_sleep_bytes (bus dev.log.length).b0 (bus dev.log.length).b1 h1
  have hlt : (bus dev.log.length).b1 ||| 128 < 2 ^ 8 :=
    Nat.or_lt_two_pow (by omega) (by decide)
  refine ⟨?_, ?_, by omega, ?_⟩
  · rw [pm_action_turn_off_eq, if_neg (by omega), hm0, hm1, hb.1, hb.2]
  · have e1 := hb.1
    have e2 := hb.2
    omega
  · intro i
    have h7 : (128 : Nat) = 2 ^ 7 := by decide
    rw [Nat.testBit_or, h7, Nat.testBit_two_pow]
    by_cases hi : i = 7
    · subst hi; simp
    · have hi' : ¬ 7 = i := fun h => hi h.symm
      simp [hi, hi']

/-- Witness for `turn_off_wire_bytes`: the CONFIG read returns the bytes `97 1C`. -/
theorem turn_off_wire_bytes_witness :
    0 ≤ (bus_config_default dev_active.log.length).rc
    ∧ (bus_config_default dev_active.log.length).b0 ≤ 255
    ∧ (bus_config_default dev_active.log.length).b1 ≤ 255
    ∧ max17048_pm_action bus_config_default PM_DEVICE_ACTION_TURN_OFF dev_active
      = ((bus_config_default (dev_active.log.length + 1)).rc,
          { dev_active with log := dev_active.log ++
              [⟨.burst_read 0x0c 2, (bus_config_default dev_active.log.length).rc⟩,
               ⟨.write [0x0c, (bus_config_default dev_active.log.length).b1 ||| 0x0080,
                  (bus_config_default dev_active.log.length).b0],
                 (bus_config_default (dev_active.log.length + 1)).rc⟩] }) :=
  ⟨by decide, by decide, by decide,
    (turn_off_wire_bytes bus_config_default dev_active (by decide) (by decide)
      (by decide)).1⟩

end Max17048
